import Mathlib

/-!
Shallow embedding of `src/input.rs` (macroquad input module): frame state
store, touch/mouse reconciler, character queue, subscriber registry and
replayer. Positions are modelled over `ℚ` (exact arithmetic on the same
field operations the source performs); the touch map (a `HashMap` in the
source) is modelled as an association list keyed by touch id; `Vec::pop`
removes the last element; Rust's panicking index is modelled as `Option`
(`none` for the out-of-bounds panic).
-/

namespace Macroquad

/-- Two-dimensional vector, the `Vec2` of the source (over `ℚ` instead of `f32`). -/
structure Vec2 where
  x : ℚ
  y : ℚ
deriving DecidableEq

instance : Sub Vec2 := ⟨fun a b => ⟨a.x - b.x, a.y - b.y⟩⟩

theorem Vec2.sub_def (a b : Vec2) : a - b = ⟨a.x - b.x, a.y - b.y⟩ := rfl

/-- Touch phase enumeration, as in the source. -/
inductive TouchPhase where
  | Started
  | Stationary
  | Moved
  | Ended
  | Cancelled
deriving DecidableEq

/-- A touch contact: `{id: u64, phase: TouchPhase, position: Vec2}`. -/
structure Touch where
  id : ℕ
  phase : TouchPhase
  position : Vec2
deriving DecidableEq

/-- Mouse button enumeration (miniquad's `MouseButton`). -/
inductive MouseButton where
  | Left
  | Right
  | Middle
  | Unknown
deriving DecidableEq, BEq

/-- External collaborators read from the quad context: device pixel scale and
screen dimensions in pixels. -/
structure Env where
  dpi_scale : ℚ
  screen_width : ℚ
  screen_height : ℚ
deriving DecidableEq

/-- The fields of the shared context that the input module reads and writes
(the subscriber registry field `input_events` is modelled separately because
it is generic in the raw event type). -/
structure Context where
  simulate_touch_with_mouse : Bool
  touches : List (ℕ × Touch)
  mouse_touch_id : ℕ
  mouse_position : Vec2
  mouse_down : List MouseButton
  mouse_pressed : List MouseButton
  mouse_released : List MouseButton
  last_mouse_position : Option Vec2
  chars_pressed_queue : List Char
deriving DecidableEq

/-- Source `is_mouse_button_down`: membership in the `mouse_down` set. -/
def is_mouse_button_down (ctx : Context) (btn : MouseButton) : Bool :=
  ctx.mouse_down.contains btn

/-- Source `is_mouse_button_pressed`: membership in the `mouse_pressed` set. -/
def is_mouse_button_pressed (ctx : Context) (btn : MouseButton) : Bool :=
  ctx.mouse_pressed.contains btn

/-- Source `is_mouse_button_released`: membership in the `mouse_released` set. -/
def is_mouse_button_released (ctx : Context) (btn : MouseButton) : Bool :=
  ctx.mouse_released.contains btn

/-- Source `mouse_position`: the stored position divided per axis by the
device pixel scale (returned as a vector; the source returns the pair). -/
def mouse_position (env : Env) (ctx : Context) : Vec2 :=
  ⟨ctx.mouse_position.x / env.dpi_scale, ctx.mouse_position.y / env.dpi_scale⟩

/-- Source `convert_to_local`:
`Vec2::new(x / screen_width, y / screen_height) * 2.0 - Vec2::new(1.0, 1.0)`. -/
def convert_to_local (env : Env) (pixel_pos : Vec2) : Vec2 :=
  ⟨pixel_pos.x / env.screen_width * 2 - 1, pixel_pos.y / env.screen_height * 2 - 1⟩

/-- Source `mouse_position_local`: pixel mouse position converted to local. -/
def mouse_position_local (env : Env) (ctx : Context) : Vec2 :=
  convert_to_local env (mouse_position env ctx)

/-- Source `mouse_delta_position`: returns `last_position - current_position`
where the missing previous value defaults to the current one, then stores the
current local position in the context. -/
def mouse_delta_position (env : Env) (ctx : Context) : Vec2 × Context :=
  let current_position := mouse_position_local env ctx
  let last_position := ctx.last_mouse_position.getD current_position
  let delta := last_position - current_position
  (delta, { ctx with last_mouse_position := some current_position })

/-- Replace the value stored at `id` in the touch map (the effect of the
source's in-place mutation through `get_mut`). -/
def touchesSet (ts : List (ℕ × Touch)) (id : ℕ) (t : Touch) : List (ℕ × Touch) :=
  ts.map fun p => bif p.1 == id then (p.1, t) else p

/-- Remove the entry stored at `id` from the touch map (source
`context.touches.remove(&context.mouse_touch_id)`). -/
def touchesRemove (ts : List (ℕ × Touch)) (id : ℕ) : List (ℕ × Touch) :=
  ts.filter fun p => p.1 != id

/-- Lines 120–139 of the source: given the existing synthetic touch, compute
its updated value and whether it is marked for removal. The release check may
set the phase to `Ended`; the `Moved`/`Stationary` recomputation runs only
when the phase is not `Ended` at that point; the position is overwritten with
the current mouse position unconditionally. -/
def mouse_touch_step (env : Env) (ctx : Context) (touch : Touch) : Touch × Bool :=
  let remove_touch :=
    !is_mouse_button_released ctx MouseButton.Left &&
      !is_mouse_button_down ctx MouseButton.Left
  let phase1 :=
    if is_mouse_button_released ctx MouseButton.Left then TouchPhase.Ended
    else touch.phase
  let mouse_vec := mouse_position env ctx
  let phase2 :=
    if phase1 = TouchPhase.Ended then phase1
    else if touch.position = mouse_vec then TouchPhase.Stationary
    else TouchPhase.Moved
  ({ touch with phase := phase2, position := mouse_vec }, remove_touch)

/-- Source `update_mouse_touch_if_necessary`: when mouse-to-touch simulation
is enabled, update or remove the existing synthetic touch via
`mouse_touch_step`, or insert a fresh `Started` touch at the current mouse
position when none exists and the left button was pressed this frame. -/
def update_mouse_touch_if_necessary (env : Env) (ctx : Context) : Context :=
  if ctx.simulate_touch_with_mouse then
    match ctx.touches.lookup ctx.mouse_touch_id with
    | some touch =>
      let r := mouse_touch_step env ctx touch
      let ts := touchesSet ctx.touches ctx.mouse_touch_id r.1
      { ctx with touches := if r.2 then touchesRemove ts ctx.mouse_touch_id else ts }
    | none =>
      if is_mouse_button_pressed ctx MouseButton.Left then
        { ctx with touches := ctx.touches ++
            [(ctx.mouse_touch_id,
              { id := ctx.mouse_touch_id
                phase := TouchPhase.Started
                position := mouse_position env ctx })] }
      else ctx
  else ctx

/-- Source `touches`: run the reconciler, then return the stored touch values
(pixel positions) together with the updated context. -/
def touches (env : Env) (ctx : Context) : List Touch × Context :=
  let ctx' := update_mouse_touch_if_necessary env ctx
  (ctx'.touches.map Prod.snd, ctx')

/-- Source `touches_local`: run the reconciler, then return the stored touch
values with positions converted to local coordinates. -/
def touches_local (env : Env) (ctx : Context) : List Touch × Context :=
  let ctx' := update_mouse_touch_if_necessary env ctx
  (ctx'.touches.map fun p =>
    { p.2 with position := convert_to_local env p.2.position }, ctx')

/-- Source `get_char_pressed`: `Vec::pop` on `chars_pressed_queue`, removing
and returning the last element, or `None` on an empty queue. -/
def get_char_pressed (ctx : Context) : Option Char × Context :=
  match ctx.chars_pressed_queue.getLast? with
  | some c => (some c, { ctx with chars_pressed_queue := ctx.chars_pressed_queue.dropLast })
  | none => (none, ctx)

/-- Modelled from the spec: the enqueue side of the character queue lives in
the event-handler code outside `src/input.rs`; per the spec the queue is a
growable sequence and `Vec::push` appends the new character at the end. -/
def push_char (ctx : Context) (c : Char) : Context :=
  { ctx with chars_pressed_queue := ctx.chars_pressed_queue ++ [c] }

/-- Source `register_input_subscriber`, acting on the `input_events` field of
the context (one log per subscriber, generic in the raw event type): push an
empty log, then return `len - 1`. -/
def register_input_subscriber {ε : Type} (events : List (List ε)) :
    ℕ × List (List ε) :=
  let events' := events ++ [[]]
  (events'.length - 1, events')

/-- Source `repeat_all_miniquad_input`, acting on the `input_events` field:
index the subscriber's log (Rust indexing panics out of range, modelled as
`none`), replay every event of the log to the handler in order (the first
component of the result is that invocation sequence), then clear the log. -/
def repeat_all_miniquad_input {ε : Type} (events : List (List ε))
    (subscriber : ℕ) : Option (List ε × List (List ε)) :=
  match events.get? subscriber with
  | some log => some (log, events.set subscriber [])
  | none => none

/-- Iterated registration starting from an empty registry: the state of
`input_events` after `n` calls to `register_input_subscriber`. -/
def registerIter (ε : Type) : ℕ → List (List ε)
  | 0 => []
  | n + 1 => (register_input_subscriber (registerIter ε n)).2

/-! ### Helper lemmas on the touch map -/

theorem lookup_touchesSet (ts : List (ℕ × Touch)) (id : ℕ) (t : Touch)
    (h : (List.lookup id ts).isSome = true) :
    List.lookup id (touchesSet ts id t) = some t := by
  induction ts with
  | nil => simp [List.lookup] at h
  | cons p rest ih =>
    obtain ⟨k, v⟩ := p
    by_cases hk : k = id
    · subst hk
      simp [touchesSet, List.lookup]
    · have hk' : (id == k) = false := by simp [Ne.symm hk]
      have hk'' : (k == id) = false := by simp [hk]
      simp only [List.lookup, hk'] at h
      simp only [touchesSet, List.map_cons, hk'', Bool.cond_false, List.lookup, hk']
      exact ih h

theorem lookup_touchesRemove (ts : List (ℕ × Touch)) (id : ℕ) :
    List.lookup id (touchesRemove ts id) = none := by
  induction ts with
  | nil => simp [touchesRemove, List.lookup]
  | cons p rest ih =>
    obtain ⟨k, v⟩ := p
    by_cases hk : k = id
    · subst hk
      simpa [touchesRemove] using ih
    · have hk' : (id == k) = false := by simp [Ne.symm hk]
      have hk'' : (k != id) = true := by simp [hk]
      simp only [touchesRemove, List.filter_cons, hk'', ite_true, List.lookup, hk']
      simpa [touchesRemove] using ih

/-! ### Concrete instances shared by witnesses and counterexamples -/

/-- Concrete environment: device pixel scale 1, screen 800×600. -/
def env0 : Env := ⟨1, 800, 600⟩

/-- Concrete base context: simulation enabled, empty state, mouse at pixel (1, 1). -/
def ctx0 : Context :=
  { simulate_touch_with_mouse := true
    touches := []
    mouse_touch_id := 0
    mouse_position := ⟨1, 1⟩
    mouse_down := []
    mouse_pressed := []
    mouse_released := []
    last_mouse_position := none
    chars_pressed_queue := [] }

/-- Concrete context holding a `Started` synthetic touch with the left button down. -/
def ctxC1 : Context :=
  { ctx0 with
    touches := [(0, ⟨0, TouchPhase.Started, ⟨0, 0⟩⟩)]
    mouse_down := [MouseButton.Left] }

/-- Concrete context holding an already-`Ended` synthetic touch with the left
button down again and not released this frame. -/
def ctxC1cex : Context :=
  { ctx0 with
    touches := [(0, ⟨0, TouchPhase.Ended, ⟨0, 0⟩⟩)]
    mouse_down := [MouseButton.Left] }

/-! ### Claims -/

/-- C1 (amended): with mouse-to-touch simulation enabled and the synthetic
touch present, a touch query updates that touch as follows: if the left
button was released this frame its phase becomes `Ended`; otherwise, when its
stored phase is not already `Ended`, if the button is still down its phase
becomes `Stationary` when the stored position equals the current mouse
position and `Moved` when it differs (an already-`Ended` touch keeps phase
`Ended`); in every case the stored position is overwritten with the current
mouse position, and whenever the entry is not removed (button released or
still down) the updated touch is what the map then stores under the sentinel
id. -/
theorem touch_update_phase_position (env : Env) (ctx : Context) (touch : Touch)
    (hsim : ctx.simulate_touch_with_mouse = true)
    (hl : List.lookup ctx.mouse_touch_id ctx.touches = some touch) :
    (mouse_touch_step env ctx touch).1.position = mouse_position env ctx ∧
    (mouse_touch_step env ctx touch).1.phase =
      (if is_mouse_button_released ctx MouseButton.Left then TouchPhase.Ended
       else if touch.phase = TouchPhase.Ended then TouchPhase.Ended
       else if touch.position = mouse_position env ctx then TouchPhase.Stationary
       else TouchPhase.Moved) ∧
    ((is_mouse_button_released ctx MouseButton.Left = true ∨
        is_mouse_button_down ctx MouseButton.Left = true) →
      List.lookup ctx.mouse_touch_id
          (update_mouse_touch_if_necessary env ctx).touches =
        some (mouse_touch_step env ctx touch).1) := by
  refine ⟨rfl, ?_, ?_⟩
  · by_cases hrel : is_mouse_button_released ctx MouseButton.Left = true
    · simp [mouse_touch_step, hrel]
    · by_cases hend : touch.phase = TouchPhase.Ended
      · simp [mouse_touch_step, hrel, hend]
      · simp [mouse_touch_step, hrel, hend]
  · intro hor
    have hrm :
        (!is_mouse_button_released ctx MouseButton.Left &&
          !is_mouse_button_down ctx MouseButton.Left) = false := by
      rcases hor with h | h <;> simp [h]
    simp only [update_mouse_touch_if_necessary, hsim, if_true, hl]
    simp only [mouse_touch_step, hrm, Bool.false_eq_true, ite_false]
    exact lookup_touchesSet ctx.touches ctx.mouse_touch_id _ (by simp [hl])

/-- C1 witness: the amended theorem applied to the concrete context `ctxC1`
(a `Started` touch stored at the origin, left button down, mouse moved to
(1, 1)). -/
theorem touch_update_phase_position_witness :
    ctxC1.simulate_touch_with_mouse = true ∧
    List.lookup ctxC1.mouse_touch_id ctxC1.touches =
      some ⟨0, TouchPhase.Started, ⟨0, 0⟩⟩ ∧
    ((mouse_touch_step env0 ctxC1 ⟨0, TouchPhase.Started, ⟨0, 0⟩⟩).1.position =
        mouse_position env0 ctxC1 ∧
      (mouse_touch_step env0 ctxC1 ⟨0, TouchPhase.Started, ⟨0, 0⟩⟩).1.phase =
        (if is_mouse_button_released ctxC1 MouseButton.Left then TouchPhase.Ended
         else if (TouchPhase.Started : TouchPhase) = TouchPhase.Ended then TouchPhase.Ended
         else if (⟨0, 0⟩ : Vec2) = mouse_position env0 ctxC1 then TouchPhase.Stationary
         else TouchPhase.Moved) ∧
      ((is_mouse_button_released ctxC1 MouseButton.Left = true ∨
          is_mouse_button_down ctxC1 MouseButton.Left = true) →
        List.lookup ctxC1.mouse_touch_id
            (update_mouse_touch_if_necessary env0 ctxC1).touches =
          some (mouse_touch_step env0 ctxC1 ⟨0, TouchPhase.Started, ⟨0, 0⟩⟩).1)) :=
  ⟨rfl, rfl, touch_update_phase_position env0 ctxC1 ⟨0, TouchPhase.Started, ⟨0, 0⟩⟩ rfl rfl⟩

/-- C1 counterexample: in `ctxC1cex` the stored synthetic touch is already in
phase `Ended`, the left button is down and was not released this frame, and
the current mouse position (1, 1) differs from the stored position (0, 0);
the claim states the phase becomes `Moved`, but the code leaves the phase
`Ended` (only the position is overwritten). -/
theorem touch_update_phase_claim_cex :
    is_mouse_button_released ctxC1cex MouseButton.Left = false ∧
    is_mouse_button_down ctxC1cex MouseButton.Left = true ∧
    List.lookup ctxC1cex.mouse_touch_id ctxC1cex.touches =
      some ⟨0, TouchPhase.Ended, ⟨0, 0⟩⟩ ∧
    (⟨0, 0⟩ : Vec2) ≠ mouse_position env0 ctxC1cex ∧
    List.lookup ctxC1cex.mouse_touch_id
        (update_mouse_touch_if_necessary env0 ctxC1cex).touches =
      some ⟨0, TouchPhase.Ended, mouse_position env0 ctxC1cex⟩ ∧
    TouchPhase.Ended ≠ TouchPhase.Moved := by
  have hmp : mouse_position env0 ctxC1cex = ⟨1, 1⟩ := by
    norm_num [mouse_position, env0, ctxC1cex, ctx0]
  refine ⟨rfl, rfl, rfl, ?_, rfl, by decide⟩
  rw [hmp]
  intro h
  have hx : (0 : ℚ) = 1 := congrArg Vec2.x h
  norm_num at hx

/-- Evaluation helper: with device pixel scale 1 the pixel mouse position is
the stored position unchanged. -/
theorem mouse_position_dpi_one (env : Env) (ctx : Context) (h : env.dpi_scale = 1) :
    mouse_position env ctx = ctx.mouse_position := by
  simp [mouse_position, h]

/-- Concrete context with no stored touch and the left button pressed this frame. -/
def ctxC2 : Context :=
  { ctx0 with mouse_pressed := [MouseButton.Left], mouse_down := [MouseButton.Left] }

/-- C2: with mouse-to-touch simulation enabled and no synthetic touch stored
under the sentinel id, a touch query inserts a new touch with the sentinel id,
phase `Started` and the current mouse position exactly when the left mouse
button was pressed this frame, and otherwise the touch map gains no entry. -/
theorem touch_insert_iff_pressed (env : Env) (ctx : Context)
    (hsim : ctx.simulate_touch_with_mouse = true)
    (hl : List.lookup ctx.mouse_touch_id ctx.touches = none) :
    (update_mouse_touch_if_necessary env ctx).touches =
      (if is_mouse_button_pressed ctx MouseButton.Left then
        ctx.touches ++
          [(ctx.mouse_touch_id,
            { id := ctx.mouse_touch_id
              phase := TouchPhase.Started
              position := mouse_position env ctx })]
       else ctx.touches) := by
  by_cases hp : is_mouse_button_pressed ctx MouseButton.Left = true
  · simp [update_mouse_touch_if_necessary, hsim, hl, hp]
  · simp [update_mouse_touch_if_necessary, hsim, hl, hp]

/-- C2 witness: in `ctxC2` (empty touch map, left button pressed at mouse
pixel position (1, 1)) the query inserts the `Started` sentinel touch. -/
theorem touch_insert_iff_pressed_witness :
    ctxC2.simulate_touch_with_mouse = true ∧
    List.lookup ctxC2.mouse_touch_id ctxC2.touches = none ∧
    (update_mouse_touch_if_necessary env0 ctxC2).touches =
      (if is_mouse_button_pressed ctxC2 MouseButton.Left then
        ctxC2.touches ++
          [(ctxC2.mouse_touch_id,
            { id := ctxC2.mouse_touch_id
              phase := TouchPhase.Started
              position := mouse_position env0 ctxC2 })]
       else ctxC2.touches) :=
  ⟨rfl, rfl, touch_insert_iff_pressed env0 ctxC2 rfl rfl⟩

/-- Concrete context with a stored `Moved` sentinel touch and the left button
neither released this frame nor down. -/
def ctxC3 : Context :=
  { ctx0 with touches := [(0, ⟨0, TouchPhase.Moved, ⟨0, 0⟩⟩)] }

/-- Concrete context with a stored `Moved` sentinel touch and the left button
released this frame. -/
def ctxC3cex : Context :=
  { ctx0 with
    touches := [(0, ⟨0, TouchPhase.Moved, ⟨0, 0⟩⟩)]
    mouse_released := [MouseButton.Left] }

/-- C3 (amended): with simulation enabled, when the synthetic touch exists and
the left button was neither released this frame nor is currently down, the
touch query removes the sentinel-id entry, so the updated touch map has no
entry under that id; moreover an `Ended` touch is phase-stable: the update
step never gives an `Ended` touch any other phase, so an `Ended` synthetic
touch never reappears with a new phase under the same id. The follow-up query
after the one reporting `Ended` returns no touch with that id provided that
at that query the button is neither released-this-frame nor down. -/
theorem touch_removal_and_ended_stable :
    (∀ (env : Env) (ctx : Context) (touch : Touch),
      ctx.simulate_touch_with_mouse = true →
      List.lookup ctx.mouse_touch_id ctx.touches = some touch →
      is_mouse_button_released ctx MouseButton.Left = false →
      is_mouse_button_down ctx MouseButton.Left = false →
      List.lookup ctx.mouse_touch_id
        (update_mouse_touch_if_necessary env ctx).touches = none) ∧
    (∀ (env : Env) (ctx : Context) (touch : Touch),
      touch.phase = TouchPhase.Ended →
      (mouse_touch_step env ctx touch).1.phase = TouchPhase.Ended) := by
  constructor
  · intro env ctx touch hsim hl hrel hdown
    have hrm : (mouse_touch_step env ctx touch).2 = true := by
      simp [mouse_touch_step, hrel, hdown]
    simp only [update_mouse_touch_if_necessary, hsim, if_true, hl, hrm, ite_true]
    exact lookup_touchesRemove _ _
  · intro env ctx touch h
    by_cases hrel : is_mouse_button_released ctx MouseButton.Left = true
    · simp [mouse_touch_step, hrel]
    · simp [mouse_touch_step, hrel, h]

/-- C3 witness: the removal clause applied to `ctxC3` (stored `Moved` touch,
button neither released nor down) and the phase-stability clause applied to a
concrete `Ended` touch. -/
theorem touch_removal_and_ended_stable_witness :
    (ctxC3.simulate_touch_with_mouse = true ∧
      List.lookup ctxC3.mouse_touch_id ctxC3.touches =
        some ⟨0, TouchPhase.Moved, ⟨0, 0⟩⟩ ∧
      is_mouse_button_released ctxC3 MouseButton.Left = false ∧
      is_mouse_button_down ctxC3 MouseButton.Left = false ∧
      List.lookup ctxC3.mouse_touch_id
        (update_mouse_touch_if_necessary env0 ctxC3).touches = none) ∧
    ((⟨0, TouchPhase.Ended, ⟨0, 0⟩⟩ : Touch).phase = TouchPhase.Ended ∧
      (mouse_touch_step env0 ctxC3 ⟨0, TouchPhase.Ended, ⟨0, 0⟩⟩).1.phase =
        TouchPhase.Ended) :=
  ⟨⟨rfl, rfl, rfl, rfl,
      touch_removal_and_ended_stable.1 env0 ctxC3 ⟨0, TouchPhase.Moved, ⟨0, 0⟩⟩
        rfl rfl rfl rfl⟩,
    ⟨rfl,
      touch_removal_and_ended_stable.2 env0 ctxC3 ⟨0, TouchPhase.Ended, ⟨0, 0⟩⟩ rfl⟩⟩

/-- C3 counterexample: in `ctxC3cex` the left button was released this frame;
the first query reports the sentinel touch with phase `Ended`, and the next
query — performed on the resulting context, where the release flag of the
same frame is still set — again returns the touch under the same sentinel id,
contradicting the claim that the query following the one reporting `Ended`
returns no touch with that id. -/
theorem ended_touch_next_query_cex :
    (touches env0 ctxC3cex).1 = [⟨0, TouchPhase.Ended, ⟨1, 1⟩⟩] ∧
    (touches env0 (touches env0 ctxC3cex).2).1 =
      [⟨0, TouchPhase.Ended, ⟨1, 1⟩⟩] := by
  constructor
  · simp only [touches, update_mouse_touch_if_necessary, mouse_touch_step,
      mouse_position_dpi_one, ctxC3cex, ctx0, env0]
    decide
  · simp only [touches, update_mouse_touch_if_necessary, mouse_touch_step,
      mouse_position_dpi_one, ctxC3cex, ctx0, env0]
    decide

/-- C4: for a registered subscriber id, replay hands the handler exactly the
queued raw events in arrival order (the first component of the result is the
sequence of handler invocations) and then clears that subscriber's log, so an
immediately repeated replay of the same id produces no invocations, while
every other subscriber's log is left unchanged. -/
theorem replay_invocations_and_clear {ε : Type} (events : List (List ε))
    (id : ℕ) (h : id < events.length) :
    repeat_all_miniquad_input events id = some (events[id], events.set id []) ∧
    repeat_all_miniquad_input (events.set id []) id = some ([], events.set id []) ∧
    ∀ j, j ≠ id → (events.set id [])[j]? = events[j]? := by
  refine ⟨?_, ?_, ?_⟩
  · simp [repeat_all_miniquad_input, List.get?_eq_getElem?, List.getElem?_eq_getElem h]
  · have hget : (events.set id [])[id]? = some [] := by
      simp [List.getElem?_set_self, h]
    simp [repeat_all_miniquad_input, List.get?_eq_getElem?, hget, List.set_set]
  · intro j hj
    exact List.getElem?_set_ne (Ne.symm hj)

/-- C4 witness: two subscribers each holding the log `[1, 2]`; replaying
subscriber 0 yields the invocations `[1, 2]` and clears its log, a repeated
replay yields no invocations, and subscriber 1's log is untouched. -/
theorem replay_invocations_and_clear_witness :
    (0 : ℕ) < ([[1, 2], [1, 2]] : List (List ℕ)).length ∧
    repeat_all_miniquad_input ([[1, 2], [1, 2]] : List (List ℕ)) 0 =
      some ([1, 2], [[], [1, 2]]) ∧
    repeat_all_miniquad_input ([[], [1, 2]] : List (List ℕ)) 0 =
      some ([], [[], [1, 2]]) ∧
    ([[], [1, 2]] : List (List ℕ))[1]? = ([[1, 2], [1, 2]] : List (List ℕ))[1]? := by
  have h := replay_invocations_and_clear ([[1, 2], [1, 2]] : List (List ℕ)) 0 (by decide)
  exact ⟨by decide, h.1, h.2.1, h.2.2 1 (by decide)⟩

/-- C8: replay with a subscriber id that was never returned by registration
(id at or beyond the registry length) hits Rust's out-of-bounds index panic,
modelled as the `none` result: a defined out-of-range error, not a silent
no-op, and no subscriber log is modified because no updated registry is
produced. -/
theorem replay_out_of_range {ε : Type} (events : List (List ε)) (id : ℕ)
    (h : events.length ≤ id) :
    repeat_all_miniquad_input events id = none := by
  simp [repeat_all_miniquad_input, List.get?_eq_getElem?,
    List.getElem?_eq_none_iff.mpr h]

/-- C8 witness: replaying id 2 on a registry of two subscribers errors out. -/
theorem replay_out_of_range_witness :
    ([[1, 2], [3]] : List (List ℕ)).length ≤ 2 ∧
    repeat_all_miniquad_input ([[1, 2], [3]] : List (List ℕ)) 2 = none :=
  ⟨by decide, replay_out_of_range ([[1, 2], [3]] : List (List ℕ)) 2 (by decide)⟩

/-- Length of the registry after `n` registrations from the empty registry. -/
theorem registerIter_length (ε : Type) (n : ℕ) : (registerIter ε n).length = n := by
  induction n with
  | zero => rfl
  | succ n ih => simp [registerIter, register_input_subscriber, ih]

/-- C9: registration allocates ids monotonically, densely and zero-based: on
any registry state it returns the number of previously registered subscribers
and appends exactly one new empty log, leaving every existing log unchanged;
consequently the n-th call starting from the empty registry returns n − 1. -/
theorem register_subscriber_spec :
    (∀ (ε : Type) (events : List (List ε)),
      register_input_subscriber events = (events.length, events ++ [[]]) ∧
      (events ++ [[]]).get? events.length = some [] ∧
      ∀ j, j < events.length → (events ++ [[]]).get? j = events.get? j) ∧
    (∀ (ε : Type) (n : ℕ), 0 < n →
      (register_input_subscriber (registerIter ε (n - 1))).1 = n - 1) := by
  constructor
  · intro ε events
    refine ⟨?_, ?_, ?_⟩
    · simp [register_input_subscriber]
    · simp [List.get?_eq_getElem?]
    · intro j hj
      simp [List.get?_eq_getElem?, List.getElem?_append_left hj]
  · intro ε n _
    simp [register_input_subscriber, registerIter_length]

/-- C9 witness: the third call on the registry reached after two registrations
from the empty registry returns id 2 = 3 − 1, appends an empty log and leaves
the existing logs in place. -/
theorem register_subscriber_spec_witness :
    (register_input_subscriber ([[1], [2]] : List (List ℕ)) =
        (2, [[1], [2], []]) ∧
      ([[1], [2], []] : List (List ℕ)).get? 2 = some [] ∧
      ([[1], [2], []] : List (List ℕ)).get? 0 = ([[1], [2]] : List (List ℕ)).get? 0) ∧
    (0 < 3 ∧ (register_input_subscriber (registerIter ℕ (3 - 1))).1 = 3 - 1) := by
  have h := register_subscriber_spec.1 ℕ [[1], [2]]
  exact ⟨⟨h.1, h.2.1, h.2.2 0 (by decide)⟩,
    by decide, register_subscriber_spec.2 ℕ 3 (by decide)⟩

/-- C10: with mouse-to-touch simulation disabled, a touch query performs no
mutation at all: the reconciler is the identity on the context, and the
queries return exactly the stored touches (positions converted to local
coordinates in the `touches_local` variant) together with the unchanged
context. -/
theorem touches_pure_when_disabled (env : Env) (ctx : Context)
    (h : ctx.simulate_touch_with_mouse = false) :
    update_mouse_touch_if_necessary env ctx = ctx ∧
    touches env ctx = (ctx.touches.map Prod.snd, ctx) ∧
    touches_local env ctx =
      (ctx.touches.map (fun p =>
        { p.2 with position := convert_to_local env p.2.position }), ctx) := by
  have h1 : update_mouse_touch_if_necessary env ctx = ctx := by
    simp [update_mouse_touch_if_necessary, h]
  exact ⟨h1, by simp [touches, h1], by simp [touches_local, h1]⟩

/-- Concrete context with simulation disabled, a stored real touch, and the
left button pressed and down (which must have no effect on touch queries). -/
def ctxC10 : Context :=
  { ctx0 with
    simulate_touch_with_mouse := false
    touches := [(7, ⟨7, TouchPhase.Moved, ⟨3, 4⟩⟩)]
    mouse_pressed := [MouseButton.Left]
    mouse_down := [MouseButton.Left] }

/-- C10 witness: on `ctxC10` the reconciler is the identity and both query
variants return the stored touch without touching the context. -/
theorem touches_pure_when_disabled_witness :
    ctxC10.simulate_touch_with_mouse = false ∧
    update_mouse_touch_if_necessary env0 ctxC10 = ctxC10 ∧
    touches env0 ctxC10 = (ctxC10.touches.map Prod.snd, ctxC10) ∧
    touches_local env0 ctxC10 =
      (ctxC10.touches.map (fun p =>
        { p.2 with position := convert_to_local env0 p.2.position }), ctxC10) := by
  have h := touches_pure_when_disabled env0 ctxC10 rfl
  exact ⟨rfl, h.1, h.2.1, h.2.2⟩

/-- C5: the character queue is last-in-first-out: popping immediately after a
push returns exactly the pushed character and restores the previous queue (so
pushing 'a', 'b', 'c' and popping three times yields 'c', 'b', 'a'), and
popping an empty queue returns `none` with the context unchanged rather than
failing. -/
theorem char_queue_lifo :
    (∀ (ctx : Context) (c : Char),
      get_char_pressed (push_char ctx c) = (some c, ctx)) ∧
    (∀ ctx : Context, ctx.chars_pressed_queue = [] →
      get_char_pressed ctx = (none, ctx)) := by
  constructor
  · intro ctx c
    simp [get_char_pressed, push_char, List.getLast?_concat, List.dropLast_concat]
  · intro ctx h
    simp [get_char_pressed, h]

/-- C5 witness: pushing 'a', 'b', 'c' onto the empty queue of `ctx0` and
popping three times yields 'c', 'b', 'a'; the fourth pop yields `none`. -/
theorem char_queue_lifo_witness :
    get_char_pressed (push_char (push_char (push_char ctx0 'a') 'b') 'c') =
      (some 'c', push_char (push_char ctx0 'a') 'b') ∧
    get_char_pressed (push_char (push_char ctx0 'a') 'b') =
      (some 'b', push_char ctx0 'a') ∧
    get_char_pressed (push_char ctx0 'a') = (some 'a', ctx0) ∧
    ctx0.chars_pressed_queue = [] ∧
    get_char_pressed ctx0 = (none, ctx0) :=
  ⟨char_queue_lifo.1 _ 'c', char_queue_lifo.1 _ 'b', char_queue_lifo.1 _ 'a',
    rfl, char_queue_lifo.2 ctx0 rfl⟩

/-- C6: `mouse_delta_position` returns `previous − current` over local
positions, the previous value being whatever the last call to the same
function stored; a missing previous value defaults to the current position,
so the first call returns the zero vector; in both cases the current local
position is stored for the next call. -/
theorem mouse_delta_spec :
    (∀ (env : Env) (ctx : Context) (p : Vec2),
      ctx.last_mouse_position = some p →
      mouse_delta_position env ctx =
        (p - mouse_position_local env ctx,
          { ctx with last_mouse_position := some (mouse_position_local env ctx) })) ∧
    (∀ (env : Env) (ctx : Context),
      ctx.last_mouse_position = none →
      mouse_delta_position env ctx =
        (⟨0, 0⟩,
          { ctx with last_mouse_position := some (mouse_position_local env ctx) })) := by
  constructor
  · intro env ctx p h
    simp [mouse_delta_position, h]
  · intro env ctx h
    simp [mouse_delta_position, h, Vec2.sub_def]

/-- Concrete context whose previous local position is the origin and whose
current local position works out to (1/2, 1/2). -/
def ctxDelta : Context :=
  { ctx0 with mouse_position := ⟨600, 450⟩, last_mouse_position := some ⟨0, 0⟩ }

/-- C6 witness: on `ctxDelta` the delta is (0,0) − (1/2,1/2) = (−1/2, −1/2)
and the new current position is stored; on `ctx0` (no previous value) the
first call returns the zero vector. -/
theorem mouse_delta_spec_witness :
    ctxDelta.last_mouse_position = some ⟨0, 0⟩ ∧
    mouse_delta_position env0 ctxDelta =
      (⟨-(1/2), -(1/2)⟩,
        { ctxDelta with last_mouse_position := some ⟨1/2, 1/2⟩ }) ∧
    ctx0.last_mouse_position = none ∧
    mouse_delta_position env0 ctx0 =
      (⟨0, 0⟩,
        { ctx0 with last_mouse_position := some (mouse_position_local env0 ctx0) }) := by
  refine ⟨rfl, ?_, rfl, mouse_delta_spec.2 env0 ctx0 rfl⟩
  have hl : mouse_position_local env0 ctxDelta = ⟨1/2, 1/2⟩ := by
    norm_num [mouse_position_local, convert_to_local, mouse_position, env0,
      ctxDelta, ctx0, Vec2.mk.injEq]
  rw [mouse_delta_spec.1 env0 ctxDelta ⟨0, 0⟩ rfl, hl]
  norm_num [Vec2.sub_def, Vec2.mk.injEq, Prod.ext_iff]

/-- C7: the pixel-to-local conversion computes `2 * (pixel / screen) − 1`
independently per axis; for an 800×600 screen, pixel (400, 300) maps to
(0, 0), pixel (0, 0) maps to (−1, −1) and pixel (800, 600) maps to (1, 1). -/
theorem convert_to_local_spec :
    (∀ (env : Env) (p : Vec2),
      convert_to_local env p =
        ⟨2 * (p.x / env.screen_width) - 1, 2 * (p.y / env.screen_height) - 1⟩) ∧
    convert_to_local env0 ⟨400, 300⟩ = ⟨0, 0⟩ ∧
    convert_to_local env0 ⟨0, 0⟩ = ⟨-1, -1⟩ ∧
    convert_to_local env0 ⟨800, 600⟩ = ⟨1, 1⟩ := by
  refine ⟨?_, ?_, ?_, ?_⟩
  · intro env p
    simp only [convert_to_local, Vec2.mk.injEq]
    constructor <;> ring
  · norm_num [convert_to_local, env0, Vec2.mk.injEq]
  · norm_num [convert_to_local, env0, Vec2.mk.injEq]
  · norm_num [convert_to_local, env0, Vec2.mk.injEq]

end Macroquad
